import Mathlib

/-!
Shallow embedding of the rate limiting middleware of the glance repository
(glance/api/middleware/ratelimit.py) together with proofs about the claims
of its specification.

Numeric conventions: Python floats are modelled as rationals, Python ints as
integers.  The shared counter store (glance/common/memcached.py, a memcache
client that is not part of the sources here) is modelled from the spec
contract: increment is atomic and returns the post-increment value, decrement
is increment with negated delta, set is an unconditional overwrite, and any
operation may signal MemcacheConnectionError.
-/

namespace Glance

/-- Python 2 `int(round(x))`: rounding half away from zero, then the
integer conversion is the identity on the already-rounded value.
Written with `Rat.floor` so that the kernel can evaluate it. -/
def pyRound (q : ℚ) : ℤ :=
  if 0 ≤ q then Rat.floor (q + 1 / 2) else -Rat.floor (1 / 2 - q)

/-- Configuration read once in `RateLimitMiddleware.__init__`; the code
defaults are clock_accuracy 1000, rate_buffer_seconds 5,
max_sleep_time_seconds 60, log_sleep_time_seconds 0, every rate 0. -/
structure Conf where
  clock_accuracy : ℤ
  rate_buffer_seconds : ℤ
  max_sleep_time_seconds : ℚ
  log_sleep_time_seconds : ℚ
  account_ratelimit : ℚ
  image_list : ℚ
  image_download : ℚ
  image_register : ℚ
  image_upload : ℚ
  image_update : ℚ

/-- The configuration built from an empty conf dict (all defaults). -/
def defaultConf : Conf := ⟨1000, 5, 60, 0, 0, 0, 0, 0, 0, 0⟩

/-- Replace only the log_sleep_time_seconds field of a configuration. -/
def setLogSleep (c : Conf) (x : ℚ) : Conf :=
  ⟨c.clock_accuracy, c.rate_buffer_seconds, c.max_sleep_time_seconds, x,
   c.account_ratelimit, c.image_list, c.image_download, c.image_register,
   c.image_upload, c.image_update⟩

/-- Modelled from the spec: which calls of the shared counter store client
(glance/common/memcached.py is absent from the sources) raise
MemcacheConnectionError during one `_get_sleep_time` call. -/
structure StoreFaults where
  incrFails : Bool
  setFails : Bool
  decrFails : Bool
  deriving DecidableEq

/-- A fully healthy store: no operation raises. -/
def noFaults : StoreFaults := ⟨false, false, false⟩

/-- A store that errors on every call (every operation raises). -/
def allDown : StoreFaults := ⟨true, true, true⟩

/-- Modelled from the spec: the mutations `_get_sleep_time` performs against
the shared counter store, recorded as a trace. -/
inductive StoreOp where
  | incrOp (key : String) (delta : ℤ)
  | setOp (key : String) (value : ℤ)
  | decrOp (key : String) (delta : ℤ)
  deriving DecidableEq

/-- Modelled from the spec: effect of one store operation on the store state
(increment returns the post-increment value, decrement is increment with
negated delta, set overwrites unconditionally). -/
def applyOp (s : String → ℤ) : StoreOp → (String → ℤ)
  | StoreOp.incrOp k d => fun k2 => if k2 = k then s k + d else s k2
  | StoreOp.setOp k v => fun k2 => if k2 = k then v else s k2
  | StoreOp.decrOp k d => fun k2 => if k2 = k then s k - d else s k2

/-- Effect of a trace of store operations, first operation first. -/
def applyOps (s : String → ℤ) (l : List StoreOp) : String → ℤ :=
  l.foldl applyOp s

/-- `now_m = int(round(time.time() * self.clock_accuracy))`. -/
def now_m (c : Conf) (t : ℚ) : ℤ := pyRound (t * (c.clock_accuracy : ℚ))

/-- `time_per_request_m = int(round(self.clock_accuracy / max_rate))`. -/
def time_per_request_m (c : Conf) (max_rate : ℚ) : ℤ :=
  pyRound ((c.clock_accuracy : ℚ) / max_rate)

/-- Outcome of `_get_sleep_time`: a normal return of a sleep duration in
seconds, or the MaxSleepTimeHitError exception carrying the duration it
reports. -/
inductive SleepResult where
  | sleep (d : ℚ)
  | maxSleepHit (d : ℚ)
  deriving DecidableEq

/-- Lines 180 to 186 of ratelimit.py: the max-sleep rejection check shared by
both branches, given the computed `need_to_sleep_m` and the trace so far.
If the decrement raises, the whole call returns 0 (the except handler). -/
def finishCheck (c : Conf) (f : StoreFaults) (key : String)
    (time_per_request need_to_sleep : ℤ) (ops : List StoreOp) :
    SleepResult × List StoreOp :=
  let max_sleep_m : ℚ := c.max_sleep_time_seconds * (c.clock_accuracy : ℚ)
  if max_sleep_m - (need_to_sleep : ℚ) ≤ (c.clock_accuracy : ℚ) * (1 / 100) then
    if f.decrFails then (SleepResult.sleep 0, ops)
    else (SleepResult.maxSleepHit ((need_to_sleep : ℚ) / (c.clock_accuracy : ℚ)),
          ops ++ [StoreOp.decrOp key time_per_request])
  else (SleepResult.sleep ((need_to_sleep : ℚ) / (c.clock_accuracy : ℚ)), ops)

/-- `RateLimitMiddleware._get_sleep_time(key, max_rate)` at wall-clock time
`t`, against store state `s` with fault pattern `f`.  Returns the outcome and
the trace of store mutations performed.  A MemcacheConnectionError from any
store call is caught and turns the call into a normal return of 0. -/
def get_sleep_time (c : Conf) (f : StoreFaults) (s : String → ℤ)
    (key : String) (max_rate : ℚ) (t : ℚ) : SleepResult × List StoreOp :=
  let nm := now_m c t
  let tpr := time_per_request_m c max_rate
  if f.incrFails then (SleepResult.sleep 0, [])
  else
    let running_time_m := s key + tpr
    let ops0 : List StoreOp := [StoreOp.incrOp key tpr]
    if nm - running_time_m > c.rate_buffer_seconds * c.clock_accuracy then
      if f.setFails then (SleepResult.sleep 0, ops0)
      else
        let next_avail_time := nm + tpr
        finishCheck c f key tpr 0 (ops0 ++ [StoreOp.setOp key next_avail_time])
    else
      let need_to_sleep_m := max (running_time_m - nm - tpr) 0
      finishCheck c f key tpr need_to_sleep_m ops0

/-- `RateLimitMiddleware._get_limit_for_action`; the ValueError raised on an
unknown action is modelled as `Except.error`.  The argument is `none` when no
action was classified (Python None). -/
def get_limit_for_action (c : Conf) (action : Option String) :
    Except String ℚ :=
  if action = some "image_list" then Except.ok c.image_list
  else if action = some "image_download" then Except.ok c.image_download
  else if action = some "image_register" then Except.ok c.image_register
  else if action = some "image_upload" then Except.ok c.image_upload
  else if action = some "image_update" then Except.ok c.image_update
  else Except.error "Unknown action in _get_limit_for_action"

/-- The tuple of limitable methods in `get_ratelimitable_key_tuples`. -/
def limitable_methods : List String := ["GET", "PUT", "POST", "DELETE", "HEAD"]

/-- `RateLimitMiddleware.get_ratelimitable_key_tuples`: the aggregate bucket
first (when the method is limitable and account_ratelimit is truthy), then
the action bucket (when its configured limit is positive); a ValueError from
the limit lookup is logged and leaves the limit at 0. -/
def get_ratelimitable_key_tuples (c : Conf) (method : String)
    (auth_tok : String) (action : Option String) : List (String × ℚ) :=
  let keys : List (String × ℚ) :=
    if method ∈ limitable_methods ∧ c.account_ratelimit ≠ 0 then
      [("ratelimit/" ++ auth_tok, c.account_ratelimit)]
    else []
  let limit : ℚ :=
    match get_limit_for_action c action with
    | Except.ok l => l
    | Except.error _ => 0
  if 0 < limit then
    keys ++ [("ratelimit/" ++ auth_tok ++ "/" ++ action.getD "", limit)]
  else keys

/-- Result of `handle_ratelimit`: the total time actually slept (the sleeps
happen one bucket at a time, each before the next bucket is checked),
whether a 429 response was returned, the trace of store operations, and the
delays that crossed the slow-sleep logging threshold. -/
structure RunResult where
  slept : ℚ
  rejected : Bool
  ops : List StoreOp
  warnings : List ℚ
  deriving DecidableEq

/-- The loop of `RateLimitMiddleware.handle_ratelimit` over the ordered
bucket list: each bucket in turn is checked with `_get_sleep_time`; a normal
return is logged when above the logging threshold and then slept, advancing
the clock; MaxSleepTimeHitError aborts the loop with a 429. -/
def handle_buckets (c : Conf) (f : StoreFaults) :
    List (String × ℚ) → (String → ℤ) → ℚ → RunResult
  | [], _, _ => ⟨0, false, [], []⟩
  | (key, max_rate) :: rest, s, t =>
    match get_sleep_time c f s key max_rate t with
    | (SleepResult.maxSleepHit _, ops) => ⟨0, true, ops, []⟩
    | (SleepResult.sleep d, ops) =>
      let w : List ℚ :=
        if c.log_sleep_time_seconds ≠ 0 ∧ c.log_sleep_time_seconds < d
        then [d] else []
      let r := handle_buckets c f rest (applyOps s ops) (t + d)
      ⟨d + r.slept, r.rejected, ops ++ r.ops, w ++ r.warnings⟩

/-- `RateLimitMiddleware.handle_ratelimit` for a request with the given
method, auth token and classified action, at wall-clock time `t`. -/
def handle_ratelimit (c : Conf) (f : StoreFaults) (method : String)
    (auth_tok : String) (action : Option String) (s : String → ℤ) (t : ℚ) :
    RunResult :=
  handle_buckets c f (get_ratelimitable_key_tuples c method auth_tok action) s t

/-- Outcome of `RateLimitMiddleware.__call__`: the wrapped application
response, or the 429 rate limited response. -/
inductive CallOutcome where
  | forwarded
  | rateLimited
  deriving DecidableEq

/-- `RateLimitMiddleware.__call__`: no memcache client bypasses rate limiting
entirely, a request without the x-auth-token header bypasses it entirely,
otherwise `handle_ratelimit` runs on the classified action.  Returns the
outcome, the time slept, and the trace of store operations. -/
def call (c : Conf) (f : StoreFaults) (hasCache : Bool)
    (auth_tok : Option String) (method : String) (action : Option String)
    (s : String → ℤ) (t : ℚ) : CallOutcome × ℚ × List StoreOp :=
  if hasCache = false then (CallOutcome.forwarded, 0, [])
  else
    match auth_tok with
    | none => (CallOutcome.forwarded, 0, [])
    | some tok =>
      let r := handle_ratelimit c f method tok action s t
      if r.rejected then (CallOutcome.rateLimited, r.slept, r.ops)
      else (CallOutcome.forwarded, r.slept, r.ops)

/-- State of a sequential single-caller simulation: current wall-clock time,
current bucket value, cumulative delay slept so far. -/
structure SimState where
  t : ℚ
  v : ℤ
  total : ℚ
  deriving DecidableEq

/-- `n` sequential requests of one caller against a single bucket of rate
`R` under the default configuration, starting from an untouched bucket
(value 0) at time 0, the caller sleeping each returned delay before its next
request.  The MaxSleepTimeHitError case keeps the cumulative delay unchanged
(it never occurs in the runs considered here). -/
def simulate (R : ℚ) : ℕ → SimState
  | 0 => ⟨0, 0, 0⟩
  | n + 1 =>
    match get_sleep_time defaultConf noFaults (fun _ => (simulate R n).v) "k" R
        (simulate R n).t with
    | (SleepResult.sleep d, ops) =>
      ⟨(simulate R n).t + d,
       applyOps (fun _ => (simulate R n).v) ops "k",
       (simulate R n).total + d⟩
    | (SleepResult.maxSleepHit _, ops) =>
      ⟨(simulate R n).t,
       applyOps (fun _ => (simulate R n).v) ops "k",
       (simulate R n).total⟩

/-- The store holding 0 under every key (a store with no prior activity). -/
def zeroStore : String → ℤ := fun _ => 0

theorem ratFloor_eq_floor (q : ℚ) : q.floor = ⌊q⌋ := by
  rw [Rat.floor_def', Rat.floor_def]

theorem pyRound_eq (q : ℚ) :
    pyRound q = if 0 ≤ q then ⌊q + 1 / 2⌋ else -⌊1 / 2 - q⌋ := by
  unfold pyRound
  simp only [ratFloor_eq_floor]

theorem pyRound_intCast (m : ℤ) : pyRound (m : ℚ) = m := by
  rw [pyRound_eq]
  split
  · rw [add_comm, Int.floor_add_int]
    norm_num
  · have h : (1 : ℚ) / 2 - (m : ℚ) = ((-m : ℤ) : ℚ) + 1 / 2 := by
      push_cast
      ring
    rw [h, Int.floor_int_add]
    norm_num

/-- Evaluation of `_get_sleep_time` in the busy branch (no idle reset) with
a healthy increment and no rejection. -/
theorem get_sleep_time_busy_eq (c : Conf) (f : StoreFaults)
    (s : String → ℤ) (key : String) (R t : ℚ)
    (hincr : f.incrFails = false)
    (hbusy : ¬ (now_m c t - (s key + time_per_request_m c R) >
      c.rate_buffer_seconds * c.clock_accuracy))
    (hadm : ¬ (c.max_sleep_time_seconds * (c.clock_accuracy : ℚ) -
      ((max (s key + time_per_request_m c R - now_m c t -
        time_per_request_m c R) 0 : ℤ) : ℚ) ≤
        (c.clock_accuracy : ℚ) * (1 / 100))) :
    get_sleep_time c f s key R t =
      (SleepResult.sleep
        (((max (s key + time_per_request_m c R - now_m c t -
            time_per_request_m c R) 0 : ℤ) : ℚ) / (c.clock_accuracy : ℚ)),
       [StoreOp.incrOp key (time_per_request_m c R)]) := by
  unfold get_sleep_time finishCheck
  simp only [hincr, Bool.false_eq_true, if_false, if_neg hbusy, if_neg hadm]

/-- C1: in the busy branch (no idle reset) with a healthy increment and no
rejection, `_get_sleep_time` returns exactly
`max(runningTime - now - timePerRequest, 0) / clockAccuracy` seconds, where
`runningTime` is the post-increment value `s key + timePerRequest`. -/
theorem get_sleep_time_busy_formula (c : Conf) (f : StoreFaults)
    (s : String → ℤ) (key : String) (R t : ℚ)
    (_hR : (0 : ℚ) < R) (hincr : f.incrFails = false)
    (hbusy : ¬ (now_m c t - (s key + time_per_request_m c R) >
      c.rate_buffer_seconds * c.clock_accuracy))
    (hadm : ¬ (c.max_sleep_time_seconds * (c.clock_accuracy : ℚ) -
      ((max (s key + time_per_request_m c R - now_m c t -
        time_per_request_m c R) 0 : ℤ) : ℚ) ≤
        (c.clock_accuracy : ℚ) * (1 / 100))) :
    get_sleep_time c f s key R t =
      (SleepResult.sleep
        (((max (s key + time_per_request_m c R - now_m c t -
            time_per_request_m c R) 0 : ℤ) : ℚ) / (c.clock_accuracy : ℚ)),
       [StoreOp.incrOp key (time_per_request_m c R)]) :=
  get_sleep_time_busy_eq c f s key R t hincr hbusy hadm

unseal Rat.inv Rat.mul Rat.add Rat.sub in
/-- Witness for C1: default configuration, untouched bucket, rate 2,
time 0. -/
theorem get_sleep_time_busy_formula_witness :
    (0 : ℚ) < 2 ∧ noFaults.incrFails = false ∧
    ¬ (now_m defaultConf 0 - (zeroStore "k" + time_per_request_m defaultConf 2) >
      defaultConf.rate_buffer_seconds * defaultConf.clock_accuracy) ∧
    ¬ (defaultConf.max_sleep_time_seconds * (defaultConf.clock_accuracy : ℚ) -
      ((max (zeroStore "k" + time_per_request_m defaultConf 2 -
        now_m defaultConf 0 - time_per_request_m defaultConf 2) 0 : ℤ) : ℚ) ≤
        (defaultConf.clock_accuracy : ℚ) * (1 / 100)) ∧
    get_sleep_time defaultConf noFaults zeroStore "k" 2 0 =
      (SleepResult.sleep
        (((max (zeroStore "k" + time_per_request_m defaultConf 2 -
            now_m defaultConf 0 - time_per_request_m defaultConf 2) 0 : ℤ) : ℚ) /
          (defaultConf.clock_accuracy : ℚ)),
       [StoreOp.incrOp "k" (time_per_request_m defaultConf 2)]) :=
  ⟨by decide, by decide, by decide, by decide,
   get_sleep_time_busy_formula defaultConf noFaults zeroStore "k" 2 0
     (by decide) (by decide) (by decide) (by decide)⟩

/-- C10: whenever `_get_sleep_time` returns normally on a healthy store, the
returned delay is non-negative and strictly below the hard ceiling minus the
one percent tolerance. -/
theorem admitted_delay_bounds (c : Conf) (s : String → ℤ) (key : String)
    (R t d : ℚ) (ops : List StoreOp)
    (hclock : 0 < c.clock_accuracy)
    (h : get_sleep_time c noFaults s key R t = (SleepResult.sleep d, ops)) :
    0 ≤ d ∧
    c.max_sleep_time_seconds * (c.clock_accuracy : ℚ) -
        d * (c.clock_accuracy : ℚ) >
      (c.clock_accuracy : ℚ) * (1 / 100) := by
  have hcq : ((c.clock_accuracy : ℤ) : ℚ) ≠ 0 := by
    exact_mod_cast hclock.ne'
  have hcnn : (0 : ℚ) ≤ ((c.clock_accuracy : ℤ) : ℚ) := by
    exact_mod_cast hclock.le
  unfold get_sleep_time finishCheck at h
  simp only [noFaults, Bool.false_eq_true, if_false] at h
  split at h
  next hreset =>
    split at h
    next hrej => exact (SleepResult.noConfusion (congrArg Prod.fst h))
    next hrej =>
      have h1 := congrArg Prod.fst h
      simp only [SleepResult.sleep.injEq] at h1
      rw [← h1, Int.cast_zero, zero_div]
      refine ⟨le_refl 0, ?_⟩
      rw [zero_mul, sub_zero]
      have h2 := not_le.mp hrej
      rw [Int.cast_zero, sub_zero] at h2
      exact h2
  next hreset =>
    split at h
    next hrej => exact (SleepResult.noConfusion (congrArg Prod.fst h))
    next hrej =>
      have h1 := congrArg Prod.fst h
      simp only [SleepResult.sleep.injEq] at h1
      rw [← h1]
      constructor
      · apply div_nonneg _ hcnn
        exact_mod_cast le_max_right _ (0 : ℤ)
      · rw [div_mul_cancel₀ _ hcq]
        exact not_le.mp hrej

unseal Rat.inv Rat.mul Rat.add Rat.sub in
/-- Witness for C10: default configuration, untouched bucket, rate 2,
time 0 (delay 0). -/
theorem admitted_delay_bounds_witness :
    0 < defaultConf.clock_accuracy ∧
    get_sleep_time defaultConf noFaults zeroStore "k" 2 0 =
      (SleepResult.sleep 0, [StoreOp.incrOp "k" 500]) ∧
    (0 ≤ (0 : ℚ) ∧
    defaultConf.max_sleep_time_seconds * (defaultConf.clock_accuracy : ℚ) -
        (0 : ℚ) * (defaultConf.clock_accuracy : ℚ) >
      (defaultConf.clock_accuracy : ℚ) * (1 / 100)) :=
  ⟨by decide, by decide,
   admitted_delay_bounds defaultConf zeroStore "k" 2 0 0 [StoreOp.incrOp "k" 500]
     (by decide) (by decide)⟩

/-- A configuration with max_sleep_time_seconds 0 (everything else at the
code defaults): every request is at the ceiling. -/
def zeroCeilingConf : Conf := ⟨1000, 5, 0, 0, 0, 0, 0, 0, 0, 0⟩

/-- A configuration with max_sleep_time_seconds 1 (everything else at the
code defaults). -/
def oneCeilingConf : Conf := ⟨1000, 5, 1, 0, 0, 0, 0, 0, 0, 0⟩

/-- The store holding 1 under every key. -/
def oneStore : String → ℤ := fun _ => 1

/-- The store holding 5 under every key. -/
def fiveStore : String → ℤ := fun _ => 5

/-- The store holding 2000 under every key. -/
def busyStore : String → ℤ := fun _ => 2000

unseal Rat.inv Rat.mul Rat.add Rat.sub in
/-- Counterexample to C3: with max_sleep_time_seconds 0, bucket value 1 and
wall-clock time 100, the idle-reset set fires before the rejection, so the
decrement leaves the bucket at 100000, not at its pre-request value 1. -/
theorem reject_restore_counterexample :
    (get_sleep_time zeroCeilingConf noFaults oneStore "k" 1 100).1 =
      SleepResult.maxSleepHit 0 ∧
    applyOps oneStore
      (get_sleep_time zeroCeilingConf noFaults oneStore "k" 1 100).2 "k" =
      100000 ∧
    oneStore "k" = 1 := by
  decide

/-- C3 amended: when the rejection condition holds after the increment and
the idle-reset branch was not taken (the busy branch), the decrement by the
same timePerRequest restores the bucket key to its value immediately before
the request began, and MaxSleepTimeHitError is signalled. -/
theorem reject_restores_without_reset (c : Conf) (f : StoreFaults)
    (s : String → ℤ) (key : String) (R t : ℚ)
    (hincr : f.incrFails = false) (hdecr : f.decrFails = false)
    (hbusy : ¬ (now_m c t - (s key + time_per_request_m c R) >
      c.rate_buffer_seconds * c.clock_accuracy))
    (hrej : c.max_sleep_time_seconds * (c.clock_accuracy : ℚ) -
      ((max (s key + time_per_request_m c R - now_m c t -
        time_per_request_m c R) 0 : ℤ) : ℚ) ≤
        (c.clock_accuracy : ℚ) * (1 / 100)) :
    (get_sleep_time c f s key R t).1 =
      SleepResult.maxSleepHit
        (((max (s key + time_per_request_m c R - now_m c t -
            time_per_request_m c R) 0 : ℤ) : ℚ) / (c.clock_accuracy : ℚ)) ∧
    applyOps s (get_sleep_time c f s key R t).2 key = s key := by
  unfold get_sleep_time finishCheck
  simp only [hincr, hdecr, Bool.false_eq_true, if_false, if_neg hbusy,
    if_pos hrej]
  simp [applyOps, applyOp]

unseal Rat.inv Rat.mul Rat.add Rat.sub in
/-- Witness for the amended C3: ceiling 1 second, busy bucket at 2000,
rate 2, time 0: the rejection fires in the busy branch and restores the
bucket value 2000. -/
theorem reject_restores_without_reset_witness :
    noFaults.incrFails = false ∧ noFaults.decrFails = false ∧
    ¬ (now_m oneCeilingConf 0 - (busyStore "k" + time_per_request_m oneCeilingConf 2) >
      oneCeilingConf.rate_buffer_seconds * oneCeilingConf.clock_accuracy) ∧
    (oneCeilingConf.max_sleep_time_seconds * (oneCeilingConf.clock_accuracy : ℚ) -
      ((max (busyStore "k" + time_per_request_m oneCeilingConf 2 -
        now_m oneCeilingConf 0 - time_per_request_m oneCeilingConf 2) 0 : ℤ) : ℚ) ≤
        (oneCeilingConf.clock_accuracy : ℚ) * (1 / 100)) ∧
    ((get_sleep_time oneCeilingConf noFaults busyStore "k" 2 0).1 =
      SleepResult.maxSleepHit
        (((max (busyStore "k" + time_per_request_m oneCeilingConf 2 -
            now_m oneCeilingConf 0 - time_per_request_m oneCeilingConf 2) 0 : ℤ) : ℚ) /
          (oneCeilingConf.clock_accuracy : ℚ)) ∧
    applyOps busyStore
      (get_sleep_time oneCeilingConf noFaults busyStore "k" 2 0).2 "k" =
      busyStore "k") :=
  ⟨by decide, by decide, by decide, by decide,
   reject_restores_without_reset oneCeilingConf noFaults busyStore "k" 2 0
     (by decide) (by decide) (by decide) (by decide)⟩

unseal Rat.inv Rat.mul Rat.add Rat.sub in
/-- Counterexample to C6: with max_sleep_time_seconds 0, an idle bucket
(value 5 at time 200) takes the idle-reset branch but then the rejection
fires: the call raises MaxSleepTimeHitError instead of returning delay 0,
and the stored value ends at 200000, not at now + timePerRequest = 201000. -/
theorem idle_reset_counterexample :
    (get_sleep_time zeroCeilingConf noFaults fiveStore "k" 1 200).1 =
      SleepResult.maxSleepHit 0 ∧
    applyOps fiveStore
      (get_sleep_time zeroCeilingConf noFaults fiveStore "k" 1 200).2 "k" =
      200000 ∧
    now_m zeroCeilingConf 200 + time_per_request_m zeroCeilingConf 1 =
      201000 := by
  decide

/-- C6 amended: on the idle branch with a healthy store, provided the
rejection condition does not then fire, `_get_sleep_time` overwrites the
stored value to now + timePerRequest via the unconditional set and returns
delay 0. -/
theorem idle_reset_zero_delay (c : Conf) (f : StoreFaults) (s : String → ℤ)
    (key : String) (R t : ℚ)
    (hincr : f.incrFails = false) (hset : f.setFails = false)
    (hreset : now_m c t - (s key + time_per_request_m c R) >
      c.rate_buffer_seconds * c.clock_accuracy)
    (hadm : ¬ (c.max_sleep_time_seconds * (c.clock_accuracy : ℚ) -
      ((0 : ℤ) : ℚ) ≤ (c.clock_accuracy : ℚ) * (1 / 100))) :
    get_sleep_time c f s key R t =
      (SleepResult.sleep 0,
       [StoreOp.incrOp key (time_per_request_m c R),
        StoreOp.setOp key (now_m c t + time_per_request_m c R)]) ∧
    applyOps s (get_sleep_time c f s key R t).2 key =
      now_m c t + time_per_request_m c R := by
  rw [Int.cast_zero] at hadm
  unfold get_sleep_time finishCheck
  simp only [hincr, hset, Bool.false_eq_true, if_false, if_pos hreset,
    Int.cast_zero, zero_div, if_neg hadm, List.cons_append, List.nil_append]
  refine ⟨trivial, ?_⟩
  simp [applyOps, applyOp]

unseal Rat.inv Rat.mul Rat.add Rat.sub in
/-- Witness for the amended C6: default configuration, untouched bucket,
rate 2, time 100: the idle reset fires, the value is set to 100500 and the
returned delay is 0. -/
theorem idle_reset_zero_delay_witness :
    noFaults.incrFails = false ∧ noFaults.setFails = false ∧
    (now_m defaultConf 100 - (zeroStore "k" + time_per_request_m defaultConf 2) >
      defaultConf.rate_buffer_seconds * defaultConf.clock_accuracy) ∧
    ¬ (defaultConf.max_sleep_time_seconds * (defaultConf.clock_accuracy : ℚ) -
      ((0 : ℤ) : ℚ) ≤ (defaultConf.clock_accuracy : ℚ) * (1 / 100)) ∧
    (get_sleep_time defaultConf noFaults zeroStore "k" 2 100 =
      (SleepResult.sleep 0,
       [StoreOp.incrOp "k" (time_per_request_m defaultConf 2),
        StoreOp.setOp "k" (now_m defaultConf 100 + time_per_request_m defaultConf 2)]) ∧
    applyOps zeroStore
      (get_sleep_time defaultConf noFaults zeroStore "k" 2 100).2 "k" =
      now_m defaultConf 100 + time_per_request_m defaultConf 2) :=
  ⟨by decide, by decide, by decide, by decide,
   idle_reset_zero_delay defaultConf noFaults zeroStore "k" 2 100
     (by decide) (by decide) (by decide) (by decide)⟩

/-- C5: a store error on the increment turns `_get_sleep_time` into a normal
return of delay 0 with no store mutation and no exception; in particular,
with a store that errors on every call, the bucket loop admits every request
of any bucket list with zero total delay and no rejection. -/
theorem store_error_fail_open (c : Conf) (f : StoreFaults) (s : String → ℤ)
    (key : String) (R t : ℚ) (l : List (String × ℚ))
    (hf : f.incrFails = true) :
    get_sleep_time c f s key R t = (SleepResult.sleep 0, []) ∧
    (handle_buckets c allDown l s t).slept = 0 ∧
    (handle_buckets c allDown l s t).rejected = false ∧
    (handle_buckets c allDown l s t).ops = [] := by
  refine ⟨by unfold get_sleep_time; simp [hf], ?_⟩
  induction l generalizing s t with
  | nil => exact ⟨rfl, rfl, rfl⟩
  | cons b rest ih =>
    obtain ⟨key2, R2⟩ := b
    have hgs : get_sleep_time c allDown s key2 R2 t =
        (SleepResult.sleep 0, []) := by
      unfold get_sleep_time
      simp [allDown]
    obtain ⟨ih1, ih2, ih3⟩ := ih (applyOps s []) (t + 0)
    simp only [handle_buckets, hgs]
    exact ⟨by simpa using ih1, by simpa using ih2, by simpa using ih3⟩

unseal Rat.inv Rat.mul Rat.add Rat.sub in
/-- Witness for C5: a fully failing store at the default configuration, one
bucket of rate 2. -/
theorem store_error_fail_open_witness :
    allDown.incrFails = true ∧
    (get_sleep_time defaultConf allDown zeroStore "k" 2 0 =
      (SleepResult.sleep 0, []) ∧
    (handle_buckets defaultConf allDown [("k", 2)] zeroStore 0).slept = 0 ∧
    (handle_buckets defaultConf allDown [("k", 2)] zeroStore 0).rejected = false ∧
    (handle_buckets defaultConf allDown [("k", 2)] zeroStore 0).ops = []) :=
  ⟨by decide,
   store_error_fail_open defaultConf allDown zeroStore "k" 2 0 [("k", 2)]
     (by decide)⟩

/-- C7: an action outside the recognized set (or no classified action at
all) makes `_get_limit_for_action` raise ValueError, which
`get_ratelimitable_key_tuples` absorbs: no action bucket is appended and
only the aggregate bucket (when configured) remains. -/
theorem unknown_action_fail_open (c : Conf) (method auth_tok : String)
    (action : Option String)
    (h : action ∉ [some "image_list", some "image_download",
      some "image_register", some "image_upload", some "image_update"]) :
    get_limit_for_action c action =
      Except.error "Unknown action in _get_limit_for_action" ∧
    get_ratelimitable_key_tuples c method auth_tok action =
      (if method ∈ limitable_methods ∧ c.account_ratelimit ≠ 0 then
        [("ratelimit/" ++ auth_tok, c.account_ratelimit)]
      else []) := by
  simp only [List.mem_cons, List.not_mem_nil, or_false, not_or] at h
  obtain ⟨h1, h2, h3, h4, h5⟩ := h
  have hlim : get_limit_for_action c action =
      Except.error "Unknown action in _get_limit_for_action" := by
    unfold get_limit_for_action
    simp [h1, h2, h3, h4, h5]
  refine ⟨hlim, ?_⟩
  unfold get_ratelimitable_key_tuples
  rw [hlim]
  simp

/-- Witness for C7: the unknown action "foobar" under the default
configuration (no aggregate limit), method GET. -/
theorem unknown_action_fail_open_witness :
    (some "foobar") ∉ [some "image_list", some "image_download",
      some "image_register", some "image_upload", some "image_update"] ∧
    (get_limit_for_action defaultConf (some "foobar") =
      Except.error "Unknown action in _get_limit_for_action" ∧
    get_ratelimitable_key_tuples defaultConf "GET" "tok" (some "foobar") =
      (if "GET" ∈ limitable_methods ∧ defaultConf.account_ratelimit ≠ 0 then
        [("ratelimit/" ++ "tok", defaultConf.account_ratelimit)]
      else [])) :=
  ⟨by decide,
   unknown_action_fail_open defaultConf "GET" "tok" (some "foobar")
     (by decide)⟩

/-- C8: a request carrying no x-auth-token bypasses the admission engine
entirely: it is forwarded to the application with zero delay and no store
operation is performed, whatever the configuration, store state, rates or
classified action. -/
theorem no_identity_bypass (c : Conf) (f : StoreFaults) (method : String)
    (action : Option String) (s : String → ℤ) (t : ℚ) :
    call c f true none method action s t = (CallOutcome.forwarded, 0, []) :=
  rfl

theorem get_sleep_time_setLogSleep (c : Conf) (x : ℚ) (f : StoreFaults)
    (s : String → ℤ) (key : String) (R t : ℚ) :
    get_sleep_time (setLogSleep c x) f s key R t =
      get_sleep_time c f s key R t := rfl

theorem handle_buckets_setLogSleep (c : Conf) (x : ℚ) (f : StoreFaults)
    (l : List (String × ℚ)) (s : String → ℤ) (t : ℚ) :
    (handle_buckets (setLogSleep c x) f l s t).slept =
      (handle_buckets c f l s t).slept ∧
    (handle_buckets (setLogSleep c x) f l s t).rejected =
      (handle_buckets c f l s t).rejected ∧
    (handle_buckets (setLogSleep c x) f l s t).ops =
      (handle_buckets c f l s t).ops := by
  induction l generalizing s t with
  | nil => exact ⟨rfl, rfl, rfl⟩
  | cons b rest ih =>
    obtain ⟨key, R⟩ := b
    simp only [handle_buckets, get_sleep_time_setLogSleep]
    cases hgs : get_sleep_time c f s key R t with
    | mk res ops =>
      cases res with
      | maxSleepHit d => simp
      | sleep d =>
        obtain ⟨ih1, ih2, ih3⟩ := ih (applyOps s ops) (t + d)
        simp [ih1, ih2, ih3]

/-- C9: the log_sleep_time_seconds threshold is observability-only: two runs
of `handle_ratelimit` differing only in that setting sleep the same total
time, make the same admit-or-429 decision, perform the same store
operations, and leave the store in the same state. -/
theorem log_sleep_observability_only (c : Conf) (x : ℚ) (f : StoreFaults)
    (method auth_tok : String) (action : Option String) (s : String → ℤ)
    (t : ℚ) :
    (handle_ratelimit (setLogSleep c x) f method auth_tok action s t).slept =
      (handle_ratelimit c f method auth_tok action s t).slept ∧
    (handle_ratelimit (setLogSleep c x) f method auth_tok action s t).rejected =
      (handle_ratelimit c f method auth_tok action s t).rejected ∧
    (handle_ratelimit (setLogSleep c x) f method auth_tok action s t).ops =
      (handle_ratelimit c f method auth_tok action s t).ops ∧
    applyOps s
        (handle_ratelimit (setLogSleep c x) f method auth_tok action s t).ops =
      applyOps s (handle_ratelimit c f method auth_tok action s t).ops := by
  have htup : get_ratelimitable_key_tuples (setLogSleep c x) method auth_tok
      action = get_ratelimitable_key_tuples c method auth_tok action := rfl
  unfold handle_ratelimit
  rw [htup]
  obtain ⟨h1, h2, h3⟩ := handle_buckets_setLogSleep c x f
    (get_ratelimitable_key_tuples c method auth_tok action) s t
  exact ⟨h1, h2, h3, by rw [h3]⟩

theorem applyOps_append (s : String → ℤ) (l1 l2 : List StoreOp) :
    applyOps s (l1 ++ l2) = applyOps (applyOps s l1) l2 := by
  unfold applyOps
  exact List.foldl_append _ _ _ _

/-- A store where bucket a holds 500 and every other bucket holds 2000. -/
def s4 : String → ℤ := fun k => if k = "a" then 500 else 2000

unseal Rat.inv Rat.mul Rat.add Rat.sub in
/-- Counterexample to C4: with ceiling 1 second, bucket a (value 500) admits
with a 0.5 second delay which is slept immediately; bucket b (value 2000)
then rejects.  The run ends rejected with 0.5 seconds already slept: the
delay accumulated from the earlier bucket is not discarded and the caller
does not observe only the rejection. -/
theorem reject_discards_delay_counterexample :
    (handle_buckets oneCeilingConf noFaults [("a", 2), ("b", 2)] s4 0).rejected
      = true ∧
    (handle_buckets oneCeilingConf noFaults [("a", 2), ("b", 2)] s4 0).slept
      = 1 / 2 := by
  decide

/-- C4 amended: if the bucket reached after prefix l1 signals
MaxSleepTimeHitError, evaluation stops at that bucket with a 429: the
remaining buckets l2 are neither checked nor incremented (the operation
trace ends with the rejecting bucket), while the delays of the buckets
before it have already been slept, not discarded. -/
theorem reject_short_circuits (c : Conf) (f : StoreFaults)
    (l1 : List (String × ℚ)) (l2 : List (String × ℚ)) (key : String) (R : ℚ)
    (s : String → ℤ) (t : ℚ) (d : ℚ) (ops : List StoreOp)
    (hpre : (handle_buckets c f l1 s t).rejected = false)
    (hrej : get_sleep_time c f (applyOps s (handle_buckets c f l1 s t).ops)
      key R (t + (handle_buckets c f l1 s t).slept) =
        (SleepResult.maxSleepHit d, ops)) :
    (handle_buckets c f (l1 ++ (key, R) :: l2) s t).rejected = true ∧
    (handle_buckets c f (l1 ++ (key, R) :: l2) s t).slept =
      (handle_buckets c f l1 s t).slept ∧
    (handle_buckets c f (l1 ++ (key, R) :: l2) s t).ops =
      (handle_buckets c f l1 s t).ops ++ ops := by
  induction l1 generalizing s t with
  | nil =>
    simp only [handle_buckets, List.nil_append] at hrej ⊢
    rw [show applyOps s [] = s from rfl, add_zero] at hrej
    simp only [handle_buckets, hrej, List.nil_append]
    exact ⟨by trivial, by trivial, by trivial⟩
  | cons b rest ih =>
    obtain ⟨k0, R0⟩ := b
    cases hgs : get_sleep_time c f s k0 R0 t with
    | mk res0 ops0 =>
      cases res0 with
      | maxSleepHit d0 =>
        simp only [handle_buckets, hgs, Bool.true_eq_false] at hpre
      | sleep d0 =>
        simp only [handle_buckets, hgs, List.cons_append, List.append_eq]
          at hpre hrej ⊢
        rw [applyOps_append, ← add_assoc] at hrej
        obtain ⟨ihr, ihs, iho⟩ := ih (applyOps s ops0) (t + d0) hpre hrej
        refine ⟨ihr, ?_, ?_⟩
        · rw [ihs]
        · rw [iho, List.append_assoc]

unseal Rat.inv Rat.mul Rat.add Rat.sub in
/-- Witness for the amended C4: prefix bucket a admits and sleeps half a
second, bucket b rejects, the trailing bucket c is never touched. -/
theorem reject_short_circuits_witness :
    (handle_buckets oneCeilingConf noFaults [("a", 2)] s4 0).rejected
      = false ∧
    get_sleep_time oneCeilingConf noFaults
      (applyOps s4 (handle_buckets oneCeilingConf noFaults [("a", 2)] s4 0).ops)
      "b" 2 (0 + (handle_buckets oneCeilingConf noFaults [("a", 2)] s4 0).slept) =
        (SleepResult.maxSleepHit (3 / 2),
         [StoreOp.incrOp "b" 500, StoreOp.decrOp "b" 500]) ∧
    ((handle_buckets oneCeilingConf noFaults
        ([("a", 2)] ++ ("b", 2) :: [("c", 2)]) s4 0).rejected = true ∧
    (handle_buckets oneCeilingConf noFaults
        ([("a", 2)] ++ ("b", 2) :: [("c", 2)]) s4 0).slept =
      (handle_buckets oneCeilingConf noFaults [("a", 2)] s4 0).slept ∧
    (handle_buckets oneCeilingConf noFaults
        ([("a", 2)] ++ ("b", 2) :: [("c", 2)]) s4 0).ops =
      (handle_buckets oneCeilingConf noFaults [("a", 2)] s4 0).ops ++
        [StoreOp.incrOp "b" 500, StoreOp.decrOp "b" 500]) :=
  ⟨by decide, by decide,
   reject_short_circuits oneCeilingConf noFaults [("a", 2)] [("c", 2)] "b" 2
     s4 0 (3 / 2) [StoreOp.incrOp "b" 500, StoreOp.decrOp "b" 500]
     (by decide) (by decide)⟩

theorem now_m_zero : now_m defaultConf 0 = 0 := by
  unfold now_m
  rw [zero_mul, show (0 : ℚ) = ((0 : ℤ) : ℚ) by norm_num, pyRound_intCast]

theorem now_m_int_mul (m : ℤ) : now_m defaultConf ((m : ℚ) / 1000) = m := by
  unfold now_m
  have h : ((m : ℚ) / 1000) * ((defaultConf.clock_accuracy : ℤ) : ℚ) =
      (m : ℚ) := by
    show ((m : ℚ) / 1000) * ((1000 : ℤ) : ℚ) = (m : ℚ)
    push_cast
    rw [div_mul_cancel₀]
    norm_num
  rw [h, pyRound_intCast]

/-- Closed form of the single-caller simulation at the default
configuration: after the first request the bucket advances by exactly one
time-per-request unit per request, each request from the second on sleeping
exactly timePerRequest clock units. -/
theorem simulate_invariant (R : ℚ)
    (htpr : 0 < time_per_request_m defaultConf R)
    (hmax : time_per_request_m defaultConf R < 59990) :
    ∀ n : ℕ, simulate R (n + 1) =
      ⟨((((n : ℤ) * time_per_request_m defaultConf R : ℤ) : ℚ)) / 1000,
       ((n : ℤ) + 1) * time_per_request_m defaultConf R,
       ((((n : ℤ) * time_per_request_m defaultConf R : ℤ) : ℚ)) / 1000⟩ := by
  intro n
  induction n with
  | zero =>
    have hbusy0 : ¬ (now_m defaultConf 0 -
        ((fun _ : String => (0 : ℤ)) "k" + time_per_request_m defaultConf R) >
        defaultConf.rate_buffer_seconds * defaultConf.clock_accuracy) := by
      rw [now_m_zero]
      show ¬ ((0 : ℤ) - (0 + time_per_request_m defaultConf R) > 5 * 1000)
      omega
    have hadm0 : ¬ (defaultConf.max_sleep_time_seconds *
        ((defaultConf.clock_accuracy : ℤ) : ℚ) -
        ((max ((fun _ : String => (0 : ℤ)) "k" +
          time_per_request_m defaultConf R - now_m defaultConf 0 -
          time_per_request_m defaultConf R) 0 : ℤ) : ℚ) ≤
        ((defaultConf.clock_accuracy : ℤ) : ℚ) * (1 / 100)) := by
      rw [now_m_zero]
      show ¬ ((60 : ℚ) * ((1000 : ℤ) : ℚ) -
        ((max ((0 : ℤ) + time_per_request_m defaultConf R - 0 -
          time_per_request_m defaultConf R) 0 : ℤ) : ℚ) ≤
        ((1000 : ℤ) : ℚ) * (1 / 100))
      have h0 : (0 : ℤ) + time_per_request_m defaultConf R - 0 -
          time_per_request_m defaultConf R = 0 := by ring
      rw [h0, max_self]
      push_cast
      norm_num
    have heval := get_sleep_time_busy_eq defaultConf noFaults
      (fun _ : String => (0 : ℤ)) "k" R 0 rfl hbusy0 hadm0
    rw [now_m_zero] at heval
    have h0 : (fun _ : String => (0 : ℤ)) "k" +
        time_per_request_m defaultConf R - 0 -
        time_per_request_m defaultConf R = 0 := by
      show (0 : ℤ) + time_per_request_m defaultConf R - 0 -
        time_per_request_m defaultConf R = 0
      ring
    rw [h0, max_self] at heval
    rw [simulate, show simulate R 0 = ⟨0, 0, 0⟩ from rfl]
    simp only [] at heval ⊢
    rw [heval]
    simp [applyOps, applyOp, SimState.mk.injEq]
  | succ n ih =>
    have hnow := now_m_int_mul ((n : ℤ) * time_per_request_m defaultConf R)
    have hbusy : ¬ (now_m defaultConf
        ((((n : ℤ) * time_per_request_m defaultConf R : ℤ) : ℚ) / 1000) -
        ((fun _ : String => ((n : ℤ) + 1) * time_per_request_m defaultConf R)
          "k" + time_per_request_m defaultConf R) >
        defaultConf.rate_buffer_seconds * defaultConf.clock_accuracy) := by
      rw [hnow]
      show ¬ ((n : ℤ) * time_per_request_m defaultConf R -
        (((n : ℤ) + 1) * time_per_request_m defaultConf R +
          time_per_request_m defaultConf R) > 5 * 1000)
      have h2 : (n : ℤ) * time_per_request_m defaultConf R -
          (((n : ℤ) + 1) * time_per_request_m defaultConf R +
            time_per_request_m defaultConf R) =
          -2 * time_per_request_m defaultConf R := by ring
      rw [h2]
      omega
    have hmx : ((n : ℤ) + 1) * time_per_request_m defaultConf R +
        time_per_request_m defaultConf R -
        (n : ℤ) * time_per_request_m defaultConf R -
        time_per_request_m defaultConf R =
        time_per_request_m defaultConf R := by ring
    have hadm : ¬ (defaultConf.max_sleep_time_seconds *
        ((defaultConf.clock_accuracy : ℤ) : ℚ) -
        ((max ((fun _ : String => ((n : ℤ) + 1) *
          time_per_request_m defaultConf R) "k" +
          time_per_request_m defaultConf R -
          now_m defaultConf
            ((((n : ℤ) * time_per_request_m defaultConf R : ℤ) : ℚ) / 1000) -
          time_per_request_m defaultConf R) 0 : ℤ) : ℚ) ≤
        ((defaultConf.clock_accuracy : ℤ) : ℚ) * (1 / 100)) := by
      rw [hnow]
      show ¬ ((60 : ℚ) * ((1000 : ℤ) : ℚ) -
        ((max (((n : ℤ) + 1) * time_per_request_m defaultConf R +
          time_per_request_m defaultConf R -
          (n : ℤ) * time_per_request_m defaultConf R -
          time_per_request_m defaultConf R) 0 : ℤ) : ℚ) ≤
        ((1000 : ℤ) : ℚ) * (1 / 100))
      rw [hmx, max_eq_left htpr.le]
      have hc : ((time_per_request_m defaultConf R : ℤ) : ℚ) < 59990 := by
        exact_mod_cast hmax
      push_cast at hc ⊢
      linarith
    have heval := get_sleep_time_busy_eq defaultConf noFaults
      (fun _ : String => ((n : ℤ) + 1) * time_per_request_m defaultConf R)
      "k" R ((((n : ℤ) * time_per_request_m defaultConf R : ℤ) : ℚ) / 1000)
      rfl hbusy hadm
    rw [hnow] at heval
    have hmx2 : (fun _ : String => ((n : ℤ) + 1) *
        time_per_request_m defaultConf R) "k" +
        time_per_request_m defaultConf R -
        (n : ℤ) * time_per_request_m defaultConf R -
        time_per_request_m defaultConf R =
        time_per_request_m defaultConf R := hmx
    rw [hmx2, max_eq_left htpr.le] at heval
    rw [simulate, ih]
    simp only [] at heval ⊢
    rw [heval]
    simp only [applyOps, applyOp, List.foldl_cons, List.foldl_nil,
      SimState.mk.injEq]
    have hca : ((defaultConf.clock_accuracy : ℤ) : ℚ) = 1000 := by
      norm_num [defaultConf]
    refine ⟨?_, ?_, ?_⟩
    · rw [hca]
      push_cast
      ring
    · push_cast
      ring
    · rw [hca]
      push_cast
      ring

theorem cumulative_general (R : ℚ) (tpr : ℤ) (m : ℕ)
    (ht : time_per_request_m defaultConf R = tpr)
    (h1 : 0 < tpr) (h2 : tpr < 59990)
    (herr : |(tpr : ℚ) / 1000 - 1 / R| ≤ 1 / 2000) :
    (simulate R (m + 1)).total = (m : ℚ) * (tpr : ℚ) / 1000 ∧
    (simulate R 1).total = 0 ∧
    |(simulate R (m + 1)).total - (m : ℚ) / R| ≤ (m : ℚ) / 2000 := by
  have hinv := simulate_invariant R (ht ▸ h1) (ht ▸ h2)
  have htot : (simulate R (m + 1)).total = (m : ℚ) * (tpr : ℚ) / 1000 := by
    rw [hinv m, ht]
    show ((((m : ℤ) * tpr : ℤ) : ℚ)) / 1000 = _
    push_cast
    ring
  refine ⟨htot, ?_, ?_⟩
  · rw [hinv 0, ht]
    show ((((0 : ℤ) * tpr : ℤ) : ℚ)) / 1000 = 0
    push_cast
    ring
  · rw [htot]
    have hsplit : (m : ℚ) * (tpr : ℚ) / 1000 - (m : ℚ) / R =
        (m : ℚ) * ((tpr : ℚ) / 1000 - 1 / R) := by ring
    rw [hsplit, abs_mul, abs_of_nonneg (Nat.cast_nonneg m)]
    calc (m : ℚ) * |(tpr : ℚ) / 1000 - 1 / R| ≤ (m : ℚ) * (1 / 2000) :=
          mul_le_mul_of_nonneg_left herr (Nat.cast_nonneg m)
      _ = (m : ℚ) / 2000 := by ring

unseal Rat.inv Rat.mul Rat.add Rat.sub in
/-- C2: for a single caller issuing N sequential requests against one fresh
bucket at rate R in {2, 5, 10, 13} under the default configuration, sleeping
each returned delay before the next request, the cumulative delay over the N
requests is (N-1) * timePerRequest / clockAccuracy seconds, the first
request incurs zero delay, and the cumulative delay equals (N-1)/R seconds
to within the accumulated rounding of clock-accuracy units
((N-1) times half a unit), for every N up to 50. -/
theorem cumulative_delay_rate (R : ℚ) (N : ℕ)
    (hR : R ∈ [(2 : ℚ), 5, 10, 13]) (hN1 : 1 ≤ N) (hN50 : N ≤ 50) :
    (simulate R N).total =
      ((N - 1 : ℕ) : ℚ) *
        ((time_per_request_m defaultConf R : ℤ) : ℚ) / 1000 ∧
    (simulate R 1).total = 0 ∧
    |(simulate R N).total - ((N - 1 : ℕ) : ℚ) / R| ≤
      ((N - 1 : ℕ) : ℚ) / 2000 := by
  obtain ⟨m, rfl⟩ : ∃ m, N = m + 1 := ⟨N - 1, by omega⟩
  simp only [Nat.add_sub_cancel]
  simp only [List.mem_cons, List.not_mem_nil, or_false] at hR
  rcases hR with rfl | rfl | rfl | rfl
  · have ht : time_per_request_m defaultConf 2 = 500 := by decide
    rw [ht]
    refine cumulative_general 2 500 m ht (by decide) (by decide) ?_
    rw [show (((500 : ℤ) : ℚ)) / 1000 - 1 / 2 = 0 by norm_num, abs_zero]
    norm_num
  · have ht : time_per_request_m defaultConf 5 = 200 := by decide
    rw [ht]
    refine cumulative_general 5 200 m ht (by decide) (by decide) ?_
    rw [show (((200 : ℤ) : ℚ)) / 1000 - 1 / 5 = 0 by norm_num, abs_zero]
    norm_num
  · have ht : time_per_request_m defaultConf 10 = 100 := by decide
    rw [ht]
    refine cumulative_general 10 100 m ht (by decide) (by decide) ?_
    rw [show (((100 : ℤ) : ℚ)) / 1000 - 1 / 10 = 0 by norm_num, abs_zero]
    norm_num
  · have ht : time_per_request_m defaultConf 13 = 77 := by decide
    rw [ht]
    refine cumulative_general 13 77 m ht (by decide) (by decide) ?_
    rw [show (((77 : ℤ) : ℚ)) / 1000 - 1 / 13 = 1 / 13000 by norm_num]
    rw [abs_of_nonneg (by norm_num : (0 : ℚ) ≤ 1 / 13000)]
    norm_num

unseal Rat.inv Rat.mul Rat.add Rat.sub in
/-- Witness for C2: rate 13, 50 requests. -/
theorem cumulative_delay_rate_witness :
    (13 : ℚ) ∈ [(2 : ℚ), 5, 10, 13] ∧ (1 : ℕ) ≤ 50 ∧ (50 : ℕ) ≤ 50 ∧
    ((simulate 13 50).total =
      ((50 - 1 : ℕ) : ℚ) *
        ((time_per_request_m defaultConf 13 : ℤ) : ℚ) / 1000 ∧
    (simulate 13 1).total = 0 ∧
    |(simulate 13 50).total - ((50 - 1 : ℕ) : ℚ) / 13| ≤
      ((50 - 1 : ℕ) : ℚ) / 2000) :=
  ⟨by decide, by decide, by decide,
   cumulative_delay_rate 13 50 (by decide) (by decide) (by decide)⟩

end Glance
